import Mathlib

/-!
Verification of the I2C display-interface adapter (`i2c/src/lib.rs`).

The adapter owns an I2C transport, a target address and a data-mode
control byte.  `send_commands` frames a command payload behind a fixed
`0x00` control byte into a single bus write; `send_data` splits a data
payload into frames of at most 16 payload bytes behind the configured
`data_byte` and issues one bus write per frame.

Shallow embedding conventions:
- bytes are `Nat` (no arithmetic is performed on them, so overflow never
  matters);
- the underlying bus transport is a function `transport : Nat → Bool`
  giving the success of the k-th write attempted during one call (writes
  are counted from 0); every write goes to the constant `self.addr`, so
  the trace records only the byte frames written;
- a Rust out-of-bounds slice or index (a panic) is embedded as the
  distinct outcome `RunResult.oob`: the slice helpers return `Option`
  and `none` aborts the operation with that outcome;
- Rust inclusive slices `buf[a..=b]` are embedded as the half-open
  range `[a, b+1)`.
-/

set_option autoImplicit false

/-- The two `DisplayError` variants this adapter can produce. -/
inductive DisplayError : Type
  | BusWriteError
  | DataFormatNotImplemented
deriving DecidableEq, Repr

/-- Outcome of one adapter call: normal return, error return, or a Rust
out-of-bounds slice/index (a panic in the source). -/
inductive RunResult : Type
  | ok
  | err (e : DisplayError)
  | oob
deriving DecidableEq, Repr

/-- The variants of `display_interface::DataFormat` matched by the
adapter.  Slices and iterators both carry their bytes as a `List Nat`;
the 16-bit variants carry their element lists but are only ever hit by
the catch-all arms. -/
inductive DataFormat : Type
  | U8 (slice : List Nat)
  | U16 (slice : List Nat)
  | U16LE (slice : List Nat)
  | U16BE (slice : List Nat)
  | U8Iter (iter : List Nat)
  | U16LEIter (iter : List Nat)
  | U16BEIter (iter : List Nat)
deriving DecidableEq, Repr

/-- The adapter state: `I2CInterface { i2c, addr, data_byte }`.  The
transport handle itself is passed separately as a success oracle. -/
structure I2CInterface : Type where
  addr : Nat
  data_byte : Nat
deriving DecidableEq, Repr

/-- The sequence of byte frames handed to `i2c.write`, in order.  Failed
writes are still recorded: the transport saw them. -/
abbrev WriteTrace : Type := List (List Nat)

/-- Rust `buf[i] = v` on a slice: `none` models the out-of-bounds panic. -/
def listSet (buf : List Nat) (i v : Nat) : Option (List Nat) :=
  if i < buf.length then some (buf.set i v) else none

/-- Rust `&buf[a..b]` (half-open): defined when `a ≤ b ∧ b ≤ buf.len()`,
otherwise the slice panics (`none`). -/
def sliceRange (buf : List Nat) (a b : Nat) : Option (List Nat) :=
  if a ≤ b ∧ b ≤ buf.length then some ((buf.drop a).take (b - a)) else none

/-- Rust `buf[a..b].copy_from_slice(src)` (half-open bounds): defined when
the range is in bounds and `src` has exactly the length of the range, otherwise
the operation panics (`none`).  The inclusive form `buf[a..=c]` is embedded
as `b = c + 1`. -/
def copyFromSlice (buf : List Nat) (a b : Nat) (src : List Nat) : Option (List Nat) :=
  if a ≤ b ∧ b ≤ buf.length ∧ src.length = b - a then
    some (buf.take a ++ src ++ buf.drop b)
  else none

/-- Fuel-driven worker for Rust `slice.chunks(16)`: splits a list into
consecutive chunks of at most 16 elements.  The fuel only serves
termination; `chunks16` always supplies enough. -/
def chunks16F : Nat → List Nat → List (List Nat)
  | _, [] => []
  | 0, _ :: _ => []
  | fuel + 1, x :: xs => (x :: xs).take 16 :: chunks16F fuel ((x :: xs).drop 16)

/-- Rust `slice.chunks(16)` as a list of chunks. -/
def chunks16 (l : List Nat) : List (List Nat) := chunks16F l.length l

/-- The chunk loop of `send_data`, `DataFormat::U8` branch
(src/i2c/src/lib.rs lines 76-89):

    for c in slice.chunks(16) {
        let chunk_len = c.len();
        writebuf[1..=chunk_len].copy_from_slice(c);
        self.i2c.write(self.addr, &writebuf[0..=chunk_len]).await
            .map_err(|_| DisplayError::BusWriteError)?;
    }

`k` counts the writes already attempted in this call, `trace` accumulates
the frames handed to the transport. -/
def send_data_u8_loop (iface : I2CInterface) (transport : Nat → Bool) :
    List (List Nat) → List Nat → Nat → WriteTrace → WriteTrace × RunResult
  | [], _, _, trace => (trace, RunResult.ok)
  | c :: cs, writebuf, k, trace =>
    match copyFromSlice writebuf 1 (c.length + 1) c with
    | none => (trace, RunResult.oob)
    | some wb =>
      match sliceRange wb 0 (c.length + 1) with
      | none => (trace, RunResult.oob)
      | some frame =>
        if transport k then
          send_data_u8_loop iface transport cs wb (k + 1) (trace ++ [frame])
        else (trace ++ [frame], RunResult.err DisplayError.BusWriteError)

/-- The byte loop of `send_data`, `DataFormat::U8Iter` branch
(src/i2c/src/lib.rs lines 92-120):

    for byte in iter.into_iter() {
        writebuf[i] = byte;
        i += 1;
        if i == len {
            self.i2c.write(self.addr, &writebuf[0..=len]).await
                .map_err(|_| DisplayError::BusWriteError)?;
            i = 1;
        }
    }
    if i > 1 {
        self.i2c.write(self.addr, &writebuf[0..=i]).await
            .map_err(|_| DisplayError::BusWriteError)?;
    }

`len` is the value of `writebuf.len()` taken before the loop. -/
def send_data_iter_loop (transport : Nat → Bool) (len : Nat) :
    List Nat → List Nat → Nat → Nat → WriteTrace → WriteTrace × RunResult
  | [], writebuf, i, k, trace =>
    if 1 < i then
      match sliceRange writebuf 0 (i + 1) with
      | none => (trace, RunResult.oob)
      | some frame =>
        if transport k then (trace ++ [frame], RunResult.ok)
        else (trace ++ [frame], RunResult.err DisplayError.BusWriteError)
    else (trace, RunResult.ok)
  | b :: rest, writebuf, i, k, trace =>
    match listSet writebuf i b with
    | none => (trace, RunResult.oob)
    | some wb =>
      if i + 1 = len then
        match sliceRange wb 0 (len + 1) with
        | none => (trace, RunResult.oob)
        | some frame =>
          if transport k then
            send_data_iter_loop transport len rest wb 1 (k + 1) (trace ++ [frame])
          else (trace ++ [frame], RunResult.err DisplayError.BusWriteError)
      else send_data_iter_loop transport len rest wb (i + 1) k trace

set_option linter.unusedVariables false in
/-- `WriteOnlyDataCommand::send_commands` (src/i2c/src/lib.rs lines 46-62).
`&slice[0..slice.len()]` is the whole `slice`; `writebuf` starts as
`[0u8; 8]`, so the command control byte at index 0 is the fixed `0x00`. -/
def send_commands (iface : I2CInterface) (transport : Nat → Bool) (cmds : DataFormat) :
    WriteTrace × RunResult :=
  match cmds with
  | DataFormat.U8 slice =>
    match copyFromSlice (List.replicate 8 0) 1 (slice.length + 1) slice with
    | none => ([], RunResult.oob)
    | some writebuf =>
      match sliceRange writebuf 0 (slice.length + 1) with
      | none => ([], RunResult.oob)
      | some frame =>
        if transport 0 then ([frame], RunResult.ok)
        else ([frame], RunResult.err DisplayError.BusWriteError)
  | _ => ([], RunResult.err DisplayError.DataFormatNotImplemented)

/-- `WriteOnlyDataCommand::send_data` (src/i2c/src/lib.rs lines 64-123).
Both supported branches start from `writebuf = [0u8; 17]` with
`writebuf[0] = self.data_byte`; the iterator branch also reads
`len = writebuf.len()` before the loop (the length is unaffected by the
index-0 store). -/
def send_data (iface : I2CInterface) (transport : Nat → Bool) (buf : DataFormat) :
    WriteTrace × RunResult :=
  match buf with
  | DataFormat.U8 slice =>
    if slice = [] then ([], RunResult.ok)
    else
      match listSet (List.replicate 17 0) 0 iface.data_byte with
      | none => ([], RunResult.oob)
      | some writebuf => send_data_u8_loop iface transport (chunks16 slice) writebuf 0 []
  | DataFormat.U8Iter iter =>
    match listSet (List.replicate 17 0) 0 iface.data_byte with
    | none => ([], RunResult.oob)
    | some writebuf =>
      send_data_iter_loop transport writebuf.length iter writebuf 1 0 []
  | _ => ([], RunResult.err DisplayError.DataFormatNotImplemented)

/-! ### Helper lemmas about the slice primitives and `chunks16` -/

theorem listSet_eq (buf : List Nat) (i v : Nat) (h : i < buf.length) :
    listSet buf i v = some (buf.set i v) := by
  simp [listSet, h]

theorem sliceRange_zero (buf : List Nat) (b : Nat) (h : b ≤ buf.length) :
    sliceRange buf 0 b = some (buf.take b) := by
  simp [sliceRange, h]

theorem copyFromSlice_eq (buf src : List Nat) (a b : Nat)
    (h1 : a ≤ b) (h2 : b ≤ buf.length) (h3 : src.length = b - a) :
    copyFromSlice buf a b src = some (buf.take a ++ src ++ buf.drop b) := by
  simp [copyFromSlice, h1, h2, h3]

theorem chunks16F_congr :
    ∀ (f1 : Nat) (f2 : Nat) (l : List Nat), l.length ≤ f1 → l.length ≤ f2 →
      chunks16F f1 l = chunks16F f2 l := by
  intro f1
  induction f1 with
  | zero =>
    intro f2 l h1 _
    have hl : l = [] := List.eq_nil_of_length_eq_zero (Nat.le_zero.mp h1)
    subst hl
    cases f2 <;> rfl
  | succ f ih =>
    intro f2 l h1 h2
    cases l with
    | nil => cases f2 <;> rfl
    | cons x xs =>
      cases f2 with
      | zero => simp at h2
      | succ f2 =>
        show (x :: xs).take 16 :: chunks16F f ((x :: xs).drop 16) =
          (x :: xs).take 16 :: chunks16F f2 ((x :: xs).drop 16)
        have hd : ((x :: xs).drop 16).length = (x :: xs).length - 16 :=
          List.length_drop 16 (x :: xs)
        have hlen : (x :: xs).length = xs.length + 1 := List.length_cons x xs
        congr 1
        exact ih f2 _ (by omega) (by omega)

theorem chunks16_nil : chunks16 [] = [] := rfl

theorem chunks16_cons (x : Nat) (xs : List Nat) :
    chunks16 (x :: xs) = (x :: xs).take 16 :: chunks16 ((x :: xs).drop 16) := by
  show chunks16F (x :: xs).length (x :: xs) = _
  have hstep : chunks16F (x :: xs).length (x :: xs) =
      (x :: xs).take 16 :: chunks16F xs.length ((x :: xs).drop 16) := rfl
  rw [hstep]
  congr 1
  apply chunks16F_congr
  · have := List.length_drop 16 (x :: xs)
    simp only [List.length_cons] at this ⊢
    omega
  · exact Nat.le_refl _

theorem chunks16_eq_nil_iff (l : List Nat) : chunks16 l = [] ↔ l = [] := by
  cases l with
  | nil => simp [chunks16_nil]
  | cons x xs => simp [chunks16_cons]

theorem chunks16_flatten : ∀ (l : List Nat), (chunks16 l).flatten = l := by
  have key : ∀ (fuel : Nat) (l : List Nat), l.length ≤ fuel →
      (chunks16F fuel l).flatten = l := by
    intro fuel
    induction fuel with
    | zero =>
      intro l h
      have hl : l = [] := List.eq_nil_of_length_eq_zero (Nat.le_zero.mp h)
      subst hl; rfl
    | succ f ih =>
      intro l h
      cases l with
      | nil => rfl
      | cons x xs =>
        show ((x :: xs).take 16 :: chunks16F f ((x :: xs).drop 16)).flatten = x :: xs
        rw [List.flatten_cons]
        rw [ih ((x :: xs).drop 16) (by
          rw [List.length_drop]
          simp only [List.length_cons] at h ⊢
          omega)]
        exact List.take_append_drop 16 (x :: xs)
  intro l
  exact key l.length l (Nat.le_refl _)

theorem chunks16_length : ∀ (l : List Nat),
    (chunks16 l).length = (l.length + 15) / 16 := by
  have key : ∀ (fuel : Nat) (l : List Nat), l.length ≤ fuel →
      (chunks16F fuel l).length = (l.length + 15) / 16 := by
    intro fuel
    induction fuel with
    | zero =>
      intro l h
      have hl : l = [] := List.eq_nil_of_length_eq_zero (Nat.le_zero.mp h)
      subst hl; rfl
    | succ f ih =>
      intro l h
      cases l with
      | nil => rfl
      | cons x xs =>
        show ((x :: xs).take 16 :: chunks16F f ((x :: xs).drop 16)).length = _
        rw [List.length_cons]
        rw [ih ((x :: xs).drop 16) (by
          rw [List.length_drop]
          simp only [List.length_cons] at h ⊢
          omega)]
        have hd : ((x :: xs).drop 16).length = (x :: xs).length - 16 :=
          List.length_drop 16 (x :: xs)
        rw [hd]
        simp only [List.length_cons]
        omega
  intro l
  exact key l.length l (Nat.le_refl _)

theorem chunks16_mem_length_le : ∀ (l : List Nat) (c : List Nat),
    c ∈ chunks16 l → c.length ≤ 16 := by
  have key : ∀ (fuel : Nat) (l : List Nat), l.length ≤ fuel →
      ∀ c ∈ chunks16F fuel l, c.length ≤ 16 := by
    intro fuel
    induction fuel with
    | zero =>
      intro l h c hc
      have hl : l = [] := List.eq_nil_of_length_eq_zero (Nat.le_zero.mp h)
      subst hl; simp [chunks16F] at hc
    | succ f ih =>
      intro l h c hc
      cases l with
      | nil => simp [chunks16F] at hc
      | cons x xs =>
        have hc2 : c = (x :: xs).take 16 ∨ c ∈ chunks16F f ((x :: xs).drop 16) := by
          simpa [chunks16F] using hc
        rcases hc2 with rfl | hc2
        · rw [List.length_take]
          omega
        · exact ih ((x :: xs).drop 16) (by
            rw [List.length_drop]
            simp only [List.length_cons] at h ⊢
            omega) c hc2
  intro l c hc
  exact key l.length l (Nat.le_refl _) c hc

/-! ### The contiguous-buffer branch of `send_data` -/

/-- One iteration of the chunk loop: with a 17-byte scratch buffer whose
first byte is `db` and a chunk of at most 16 bytes, the copy succeeds,
the buffer keeps its length and first byte, and the written slice is
exactly `db :: c`. -/
theorem u8_frame_step (db : Nat) (writebuf c : List Nat)
    (hw : writebuf.length = 17) (hw1 : writebuf.take 1 = [db])
    (hc : c.length ≤ 16) :
    ∃ wb, copyFromSlice writebuf 1 (c.length + 1) c = some wb ∧
      wb.length = 17 ∧ wb.take 1 = [db] ∧
      sliceRange wb 0 (c.length + 1) = some (db :: c) := by
  refine ⟨writebuf.take 1 ++ c ++ writebuf.drop (c.length + 1), ?_, ?_, ?_, ?_⟩
  · exact copyFromSlice_eq writebuf c 1 (c.length + 1) (by omega) (by omega) (by omega)
  · simp only [List.length_append, List.length_take, List.length_drop, hw]
    omega
  · rw [hw1]
    simp
  · rw [sliceRange_zero]
    · rw [hw1]
      show some ((db :: (c ++ writebuf.drop (c.length + 1))).take (c.length + 1)) = _
      rw [List.take_succ_cons, List.take_left' rfl]
    · simp only [List.length_append, List.length_take, List.length_drop, hw]
      omega

/-- When every transport write succeeds, the chunk loop appends one frame
`data_byte :: c` per chunk `c` to the trace and returns success. -/
theorem send_data_u8_loop_ok (iface : I2CInterface) (transport : Nat → Bool)
    (hT : ∀ k, transport k = true) :
    ∀ (cs : List (List Nat)) (writebuf : List Nat) (k : Nat) (trace : WriteTrace),
      (∀ c ∈ cs, c.length ≤ 16) → writebuf.length = 17 →
      writebuf.take 1 = [iface.data_byte] →
      send_data_u8_loop iface transport cs writebuf k trace =
        (trace ++ cs.map (fun c => iface.data_byte :: c), RunResult.ok) := by
  intro cs
  induction cs with
  | nil =>
    intro writebuf k trace _ _ _
    simp [send_data_u8_loop]
  | cons c cs ih =>
    intro writebuf k trace hcs hw hw1
    obtain ⟨wb, hcopy, hwb, hwb1, hslice⟩ :=
      u8_frame_step iface.data_byte writebuf c hw hw1 (hcs c (List.mem_cons_self c cs))
    rw [send_data_u8_loop, hcopy]
    simp only [hslice, hT k, if_true]
    rw [ih wb (k + 1) (trace ++ [iface.data_byte :: c])
      (fun d hd => hcs d (List.mem_cons_of_mem c hd)) hwb hwb1]
    simp

/-- When the transport first fails at the `(j+1)`-st remaining write, the
chunk loop issues exactly `j + 1` more writes (the failed one included)
and aborts with `BusWriteError`. -/
theorem send_data_u8_loop_fail (iface : I2CInterface) (transport : Nat → Bool) :
    ∀ (cs : List (List Nat)) (j : Nat) (writebuf : List Nat) (k : Nat) (trace : WriteTrace),
      (∀ c ∈ cs, c.length ≤ 16) → writebuf.length = 17 →
      writebuf.take 1 = [iface.data_byte] →
      j < cs.length →
      transport (k + j) = false →
      (∀ m, m < j → transport (k + m) = true) →
      send_data_u8_loop iface transport cs writebuf k trace =
        (trace ++ (cs.take (j + 1)).map (fun c => iface.data_byte :: c),
          RunResult.err DisplayError.BusWriteError) := by
  intro cs
  induction cs with
  | nil =>
    intro j _ _ _ _ _ _ hj _ _
    simp at hj
  | cons c cs ih =>
    intro j writebuf k trace hcs hw hw1 hj hfail hpre
    obtain ⟨wb, hcopy, hwb, hwb1, hslice⟩ :=
      u8_frame_step iface.data_byte writebuf c hw hw1 (hcs c (List.mem_cons_self c cs))
    cases j with
    | zero =>
      have hk : transport k = false := by simpa using hfail
      rw [send_data_u8_loop, hcopy]
      simp only [hslice, hk, if_false]
      simp
    | succ j =>
      have hk : transport k = true := by
        have := hpre 0 (Nat.succ_pos j)
        simpa using this
      rw [send_data_u8_loop, hcopy]
      simp only [hslice, hk, if_true]
      rw [ih j wb (k + 1) (trace ++ [iface.data_byte :: c])
        (fun d hd => hcs d (List.mem_cons_of_mem c hd)) hwb hwb1
        (by simp only [List.length_cons] at hj; omega)
        (by rw [show k + 1 + j = k + (j + 1) from by omega]; exact hfail)
        (fun m hm => by
          rw [show k + 1 + m = k + (m + 1) from by omega]
          exact hpre (m + 1) (by omega))]
      simp

/-- Entering the nonempty `DataFormat::U8` branch of `send_data`: the
scratch buffer is `data_byte` followed by sixteen zero bytes, and the
loop runs over `chunks16 slice`. -/
theorem send_data_u8_entry (iface : I2CInterface) (transport : Nat → Bool)
    (slice : List Nat) (h : slice ≠ []) :
    send_data iface transport (DataFormat.U8 slice) =
      send_data_u8_loop iface transport (chunks16 slice)
        (iface.data_byte :: List.replicate 16 0) 0 [] := by
  show (if slice = [] then ([], RunResult.ok) else _) = _
  rw [if_neg h]
  show send_data_u8_loop iface transport (chunks16 slice)
      ((List.replicate 17 0).set 0 iface.data_byte) 0 [] = _
  congr 1

/-! ### `send_commands` -/

/-- Characterization of `send_commands` on a contiguous payload of at
most 7 bytes: one write of frame `0x00 :: slice`, whose result is the
verdict of the transport mapped to `BusWriteError` on failure. -/
theorem send_commands_u8_spec (iface : I2CInterface) (transport : Nat → Bool)
    (slice : List Nat) (h : slice.length ≤ 7) :
    send_commands iface transport (DataFormat.U8 slice) =
      ([0 :: slice],
        if transport 0 then RunResult.ok else RunResult.err DisplayError.BusWriteError) := by
  have e1 : (List.replicate 8 (0 : Nat)).take 1 = [0] := by decide
  have e2 : (List.replicate 8 (0 : Nat)).drop (slice.length + 1) =
      List.replicate (7 - slice.length) 0 := by
    rw [show (List.replicate 8 (0 : Nat)) = 0 :: List.replicate 7 0 from by decide,
      List.drop_succ_cons, List.drop_replicate]
  have hcopy : copyFromSlice (List.replicate 8 0) 1 (slice.length + 1) slice =
      some (0 :: (slice ++ List.replicate (7 - slice.length) 0)) := by
    rw [copyFromSlice_eq _ _ _ _ (by omega)
      (by simp only [List.length_replicate]; omega) (by omega)]
    rw [e1, e2]
    rfl
  have hframe : sliceRange (0 :: (slice ++ List.replicate (7 - slice.length) 0)) 0
      (slice.length + 1) = some (0 :: slice) := by
    rw [sliceRange_zero _ _
      (by simp only [List.length_cons, List.length_append, List.length_replicate]; omega)]
    rw [List.take_succ_cons, List.take_left' rfl]
  simp only [send_commands, hcopy, hframe]
  cases h2 : transport 0 <;> simp

/-- Claim C5: for every contiguous command payload of length at most 7
bytes, `send_commands` issues exactly one bus write of length
`1 + len(payload)`, whose first byte is `0x00` and whose remaining bytes
equal the payload in order. -/
theorem send_commands_small_payload (iface : I2CInterface) (transport : Nat → Bool)
    (slice : List Nat) (h : slice.length ≤ 7) :
    send_commands iface transport (DataFormat.U8 slice) =
      ([0 :: slice],
        if transport 0 then RunResult.ok else RunResult.err DisplayError.BusWriteError) ∧
    (send_commands iface transport (DataFormat.U8 slice)).1.length = 1 ∧
    ∀ f ∈ (send_commands iface transport (DataFormat.U8 slice)).1,
      f.length = 1 + slice.length ∧ f.head? = some 0 ∧ f.drop 1 = slice := by
  have hm := send_commands_u8_spec iface transport slice h
  refine ⟨hm, by rw [hm]; rfl, ?_⟩
  rw [hm]
  intro f hf
  have h33 : f = 0 :: slice := by simpa using hf
  subst h33
  refine ⟨?_, rfl, rfl⟩
  simp only [List.length_cons]
  omega

/-- Witness for C5 at the 3-byte payload `[1, 2, 3]` over a transport
that always succeeds. -/
theorem send_commands_small_payload_witness :
    ([1, 2, 3] : List Nat).length ≤ 7 ∧
    send_commands ⟨60, 64⟩ (fun _ => true) (DataFormat.U8 [1, 2, 3]) =
      ([[0, 1, 2, 3]], RunResult.ok) := by
  refine ⟨by decide, ?_⟩
  have h := (send_commands_small_payload ⟨60, 64⟩ (fun _ => true) [1, 2, 3] (by decide)).1
  rw [h]
  rfl

/-- Claim C10: for the empty contiguous payload, `send_commands` is not
a no-op: it issues exactly one bus write of length 1 consisting solely
of the `0x00` command prefix byte and returns the result of that write,
unlike `send_data`, which issues no write for an empty buffer. -/
theorem send_commands_empty_not_noop (iface : I2CInterface) (transport : Nat → Bool) :
    send_commands iface transport (DataFormat.U8 []) =
      ([[0]],
        if transport 0 then RunResult.ok else RunResult.err DisplayError.BusWriteError) ∧
    send_data iface transport (DataFormat.U8 []) = ([], RunResult.ok) := by
  refine ⟨?_, rfl⟩
  have hm := send_commands_u8_spec iface transport [] (by decide)
  exact hm

/-- Claim C8: for the empty contiguous buffer payload, `send_data`
issues zero bus writes and returns success. -/
theorem send_data_empty_noop (iface : I2CInterface) (transport : Nat → Bool) :
    send_data iface transport (DataFormat.U8 []) = ([], RunResult.ok) := rfl

/-- Claim C7: for every payload representation other than a contiguous
byte buffer or, for `send_data` only, a lazy byte sequence, both
operations issue zero bus writes and return `DataFormatNotImplemented`. -/
theorem unsupported_formats_rejected (iface : I2CInterface) (transport : Nat → Bool)
    (fmt : DataFormat) :
    ((∀ s, fmt ≠ DataFormat.U8 s) →
      send_commands iface transport fmt = ([], RunResult.err DisplayError.DataFormatNotImplemented)) ∧
    ((∀ s, fmt ≠ DataFormat.U8 s) → (∀ s, fmt ≠ DataFormat.U8Iter s) →
      send_data iface transport fmt = ([], RunResult.err DisplayError.DataFormatNotImplemented)) := by
  constructor
  · intro h8
    cases fmt with
    | U8 s => exact absurd rfl (h8 s)
    | U16 s => rfl
    | U16LE s => rfl
    | U16BE s => rfl
    | U8Iter s => rfl
    | U16LEIter s => rfl
    | U16BEIter s => rfl
  · intro h8 hIt
    cases fmt with
    | U8 s => exact absurd rfl (h8 s)
    | U16 s => rfl
    | U16LE s => rfl
    | U16BE s => rfl
    | U8Iter s => exact absurd rfl (hIt s)
    | U16LEIter s => rfl
    | U16BEIter s => rfl

/-- Witness for C7 at the 16-bit format `U16 [1]`. -/
theorem unsupported_formats_rejected_witness :
    send_commands ⟨60, 64⟩ (fun _ => true) (DataFormat.U16 [1]) =
      ([], RunResult.err DisplayError.DataFormatNotImplemented) ∧
    send_data ⟨60, 64⟩ (fun _ => true) (DataFormat.U16 [1]) =
      ([], RunResult.err DisplayError.DataFormatNotImplemented) := by
  have h := unsupported_formats_rejected ⟨60, 64⟩ (fun _ => true) (DataFormat.U16 [1])
  exact ⟨h.1 (fun s hs => by cases hs), h.2 (fun s hs => by cases hs) (fun s hs => by cases hs)⟩

/-- Claim C2: for every contiguous buffer payload, when all transport
writes succeed, `send_data` issues exactly `ceil(n / 16)` bus writes
(0 when n = 0), each write is `data_byte` followed by its chunk, and the
payload portions of the writes concatenate back to the original buffer. -/
theorem send_data_u8_chunking (iface : I2CInterface) (transport : Nat → Bool)
    (slice : List Nat) (hT : ∀ k, transport k = true) :
    send_data iface transport (DataFormat.U8 slice) =
      ((chunks16 slice).map (fun c => iface.data_byte :: c), RunResult.ok) ∧
    (send_data iface transport (DataFormat.U8 slice)).1.length = (slice.length + 15) / 16 ∧
    ((send_data iface transport (DataFormat.U8 slice)).1.map (fun f => f.drop 1)).flatten
      = slice ∧
    ∀ f ∈ (send_data iface transport (DataFormat.U8 slice)).1,
      f.length = 1 + (f.drop 1).length ∧ f.head? = some iface.data_byte := by
  have hmain : send_data iface transport (DataFormat.U8 slice) =
      ((chunks16 slice).map (fun c => iface.data_byte :: c), RunResult.ok) := by
    by_cases h : slice = []
    · subst h
      rw [chunks16_nil]
      rfl
    · rw [send_data_u8_entry iface transport slice h]
      exact send_data_u8_loop_ok iface transport hT (chunks16 slice) _ 0 []
        (fun c hc => chunks16_mem_length_le slice c hc) (by simp) (by simp)
  refine ⟨hmain, ?_, ?_, ?_⟩
  · rw [hmain]
    simp [chunks16_length]
  · rw [hmain]
    simp only [List.map_map]
    have : ((fun f => List.drop 1 f) ∘ fun c => iface.data_byte :: c) = fun c => c := by
      funext c
      simp
    rw [this]
    simp [chunks16_flatten]
  · rw [hmain]
    intro f hf
    simp only [List.mem_map] at hf
    obtain ⟨c, _, rfl⟩ := hf
    constructor
    · simp only [List.length_cons, List.drop_succ_cons, List.drop_zero]
      omega
    · rfl

/-- Witness for C2 at a 17-byte buffer (two chunks: 16 + 1) over an
always-succeeding transport. -/
theorem send_data_u8_chunking_witness :
    (∀ k, (fun (_ : Nat) => true) k = true) ∧
    send_data ⟨60, 64⟩ (fun _ => true) (DataFormat.U8 (List.replicate 17 5)) =
      ([64 :: List.replicate 16 5, [64, 5]], RunResult.ok) := by
  refine ⟨fun k => rfl, ?_⟩
  have h := (send_data_u8_chunking ⟨60, 64⟩ (fun _ => true) (List.replicate 17 5)
    (fun k => rfl)).1
  rw [h]
  decide

/-- Claim C6: for a multi-chunk contiguous `send_data` call whose
transport fails on the k-th write (succeeding on all earlier ones),
exactly k writes are issued, the call returns `BusWriteError`, and the
k-1 already-issued frames remain exactly the frames of the first k-1
chunks (nothing is undone). -/
theorem send_data_u8_fail_kth (iface : I2CInterface) (transport : Nat → Bool)
    (slice : List Nat) (k : Nat)
    (hmulti : 2 ≤ (chunks16 slice).length)
    (hk1 : 1 ≤ k) (hk2 : k ≤ (chunks16 slice).length)
    (hfail : transport (k - 1) = false)
    (hpre : ∀ j, j < k - 1 → transport j = true) :
    send_data iface transport (DataFormat.U8 slice) =
      (((chunks16 slice).take k).map (fun c => iface.data_byte :: c),
        RunResult.err DisplayError.BusWriteError) ∧
    (send_data iface transport (DataFormat.U8 slice)).1.length = k := by
  have hne : slice ≠ [] := by
    intro h
    subst h
    rw [chunks16_nil] at hmulti
    simp at hmulti
  have hk' : k - 1 + 1 = k := by omega
  have hloop := send_data_u8_loop_fail iface transport (chunks16 slice) (k - 1)
    (iface.data_byte :: List.replicate 16 0) 0 []
    (fun c hc => chunks16_mem_length_le slice c hc) (by simp) (by simp)
    (by omega) (by simpa using hfail) (fun m hm => by simpa using hpre m hm)
  rw [hk'] at hloop
  have hmain : send_data iface transport (DataFormat.U8 slice) =
      (((chunks16 slice).take k).map (fun c => iface.data_byte :: c),
        RunResult.err DisplayError.BusWriteError) := by
    rw [send_data_u8_entry iface transport slice hne, hloop]
    simp
  refine ⟨hmain, ?_⟩
  rw [hmain]
  simp only [List.length_map, List.length_take]
  omega

/-- Witness for C6 at a 17-byte buffer (two chunks) with a transport that
fails on its first write (k = 1): exactly one write is issued. -/
theorem send_data_u8_fail_kth_witness :
    2 ≤ (chunks16 (List.replicate 17 5)).length ∧
    (fun (_ : Nat) => false) 0 = false ∧
    send_data ⟨60, 64⟩ (fun _ => false) (DataFormat.U8 (List.replicate 17 5)) =
      ([64 :: List.replicate 16 5], RunResult.err DisplayError.BusWriteError) := by
  refine ⟨by decide, rfl, ?_⟩
  have h := (send_data_u8_fail_kth ⟨60, 64⟩ (fun _ => false) (List.replicate 17 5) 1
    (by decide) (by omega) (by decide) rfl (fun j hj => absurd hj (by omega))).1
  rw [h]
  decide

/-! ### The lazy-sequence (`U8Iter`) branch: divergences from the spec

The `U8Iter` branch of the source compares `i == len` with
`len = writebuf.len() = 17` and then slices `writebuf[0..=len]`, an
out-of-bounds range on a 17-byte buffer; its final flush slices
`writebuf[0..=i]` where the accumulated bytes occupy indices `1..i-1`,
so the flush frame carries one extra stale byte.  The theorems below
evaluate the embedded function at concrete failing inputs. -/

/-- Claim C1 (refuted by the code): the lazy-sequence path does not match
the buffer path.  At the one-byte payload `[170]` the buffer path writes
the 2-byte frame `[64, 170]` while the iterator path writes the 3-byte
frame `[64, 170, 0]` (final flush `writebuf[0..=i]` is one byte too
long), so the two traces differ. -/
theorem iter_path_diverges_from_buffer_path :
    send_data ⟨60, 64⟩ (fun _ => true) (DataFormat.U8Iter [170]) =
      ([[64, 170, 0]], RunResult.ok) ∧
    send_data ⟨60, 64⟩ (fun _ => true) (DataFormat.U8 [170]) =
      ([[64, 170]], RunResult.ok) ∧
    send_data ⟨60, 64⟩ (fun _ => true) (DataFormat.U8Iter [170]) ≠
      send_data ⟨60, 64⟩ (fun _ => true) (DataFormat.U8 [170]) := by
  refine ⟨by decide, by decide, by decide⟩

/-- Claim C3 (refuted by the code): a 16-byte lazy sequence does not
produce one 17-byte write; the full-frame write slices
`writebuf[0..=17]` on the 17-byte buffer, which is out of bounds
(a panic), after zero issued writes. -/
theorem iter_16_bytes_goes_out_of_bounds :
    send_data ⟨60, 64⟩ (fun _ => true) (DataFormat.U8Iter (List.replicate 16 7)) =
      ([], RunResult.oob) := by decide

/-- Claim C4 (refuted by the code): a 3-byte lazy sequence produces one
write of 5 bytes `[64, 1, 2, 3, 0]` (prefix, the three payload bytes,
one stale zero byte), not the claimed `1 + 3`-byte write. -/
theorem iter_small_payload_has_extra_byte :
    send_data ⟨60, 64⟩ (fun _ => true) (DataFormat.U8Iter [1, 2, 3]) =
      ([[64, 1, 2, 3, 0]], RunResult.ok) ∧
    send_data ⟨60, 64⟩ (fun _ => true) (DataFormat.U8Iter [1, 2, 3]) ≠
      ([[64, 1, 2, 3]], RunResult.ok) := by
  refine ⟨by decide, by decide⟩

/-- Claim C9 (refuted by the code): the out-of-bounds branch of the
embedded `U8Iter` path is reachable: a 20-byte lazy sequence aborts in
the out-of-bounds state as soon as the first full frame is reached
(the slice `writebuf[0..=17]`), with zero writes issued. -/
theorem iter_indexing_not_in_bounds :
    send_data ⟨60, 64⟩ (fun _ => true) (DataFormat.U8Iter (List.replicate 20 1)) =
      ([], RunResult.oob) := by decide

/-- Specification scenario: a 32-byte buffer with `data_byte = 0x40`
issues two writes, `0x40` followed by the first 16 bytes, then `0x40`
followed by the remaining 16 bytes. -/
theorem scenario_32_byte_buffer :
    send_data ⟨60, 64⟩ (fun _ => true)
        (DataFormat.U8 (List.replicate 16 2 ++ List.replicate 16 3)) =
      ([64 :: List.replicate 16 2, 64 :: List.replicate 16 3], RunResult.ok) := by decide
